import Mathlib

/-!
Shallow embedding of the IoTDB MCP server (src/iotdb_mcp_server/server.py).

Python strings are modelled as lists of characters (`Str`); the database
driver is modelled as a function from statement text to an optional result
set (`none` meaning the driver raised); each handler is modelled as a pure
function returning an `Outcome` that records the exception raised (if any),
the text returned (if any), the number of sessions taken from the pool, the
number of sessions closed, and the statements sent to the database.

The `security_gate` function lives in utils.py, which is not part of the
sources at hand; it is modelled from the spec, as marked on its doc comment.
-/

namespace IoTDBMCP

/-- Python strings are modelled as lists of characters. -/
abbrev Str : Type := List Char

/-- Embed a Lean string literal into the model. -/
def str (s : String) : Str := s.data

/-- Python whitespace, as stripped by str.strip(). -/
def pySpace (c : Char) : Bool :=
  c == ' ' || c == '\t' || c == '\n' || c == '\r' || c == '\x0b' || c == '\x0c'

/-- Python str.strip(). -/
def trim (s : Str) : Str :=
  ((s.dropWhile pySpace).reverse.dropWhile pySpace).reverse

/-- Python str.upper() (the queries involved are ASCII). -/
def upper (s : Str) : Str := s.map Char.toUpper

/-- Python str.split(sep) for a one-character separator. -/
def splitOnChar (c : Char) : Str → List Str
  | [] => [[]]
  | x :: xs =>
    if x = c then [] :: splitOnChar c xs
    else
      match splitOnChar c xs with
      | [] => [[x]]
      | y :: ys => (x :: y) :: ys

/-- Python sep.join(xs) for a one-character separator. -/
def joinSep (c : Char) : List Str → Str
  | [] => []
  | [x] => x
  | x :: y :: xs => x ++ c :: joinSep c (y :: xs)

/-- A query result: named columns and rows of stringified fields. -/
structure ResultSet where
  columns : List Str
  rows : List (List Str)
deriving DecidableEq

/-- Observable outcome of one handler invocation. -/
structure Outcome where
  raised : Option Str
  text : Option Str
  acquired : Nat
  closed : Nat
  executed : List Str
deriving DecidableEq

/-- str(row.get_fields()[0]) collected over all rows: the first field of
every row; `none` models the IndexError Python raises on a row with no
fields. -/
def firstFields : List (List Str) → Option (List Str)
  | [] => some []
  | [] :: _ => none
  | (f :: _) :: rest => (firstFields rest).map (fun ns => f :: ns)

/-- The denylisted SQL keywords of the security gate. -/
def DENYLIST : List Str :=
  [str "DROP", str "DELETE", str "TRUNCATE", str "ALTER", str "UPDATE",
   str "INSERT", str "GRANT", str "REVOKE", str "CREATE"]

/-- A character that may be part of a SQL word token (identifier or keyword). -/
def isWordChar (c : Char) : Bool :=
  c.isAlpha || c.isDigit || c == '_' || c == '.'

/-- Emit the pending token, if non-empty. -/
def flushTok (cur : Str) : List Str := if cur = [] then [] else [cur]

/-- Modelled from the spec: the tokenization used by `security_gate` of
utils.py, which is not among the sources at hand. It splits the text on
whitespace/punctuation outside single- or double-quoted string-literal
spans, skipping the content of literals, and reports whether a statement
separator (a semicolon) occurs outside such spans. An unterminated literal
silently ends at the end of the text. Arguments: remaining text, the quote
that opened the current literal (if any), the token accumulated so far. -/
def scanQuery : Str → Option Char → Str → List Str × Bool
  | [], _, cur => (flushTok cur, false)
  | c :: cs, some q, cur =>
    if c = q then scanQuery cs none cur else scanQuery cs (some q) cur
  | c :: cs, none, cur =>
    if c = '\x27' ∨ c = '\x22' then
      let r := scanQuery cs (some c) []
      (flushTok cur ++ r.1, r.2)
    else if c = ';' then
      let r := scanQuery cs none []
      (flushTok cur ++ r.1, true)
    else if isWordChar c then scanQuery cs none (cur ++ [c])
    else
      let r := scanQuery cs none []
      (flushTok cur ++ r.1, r.2)

/-- The word tokens of a query outside string literals, after trim and
uppercase normalization. -/
def tokensOf (q : Str) : List Str := (scanQuery (upper (trim q)) none []).1

/-- Whether a statement separator occurs in the query outside string
literals, after trim and uppercase normalization. -/
def sepOf (q : Str) : Bool := (scanQuery (upper (trim q)) none []).2

/-- Modelled from the spec: `security_gate` of utils.py, which is not among
the sources at hand. Returns (is_dangerous, reason): it rejects the
empty/whitespace-only query, any query containing a denylisted keyword as a
standalone token outside string literals (with the keyword itself as the
reason), and any query containing a multi-statement separator outside
string literals. -/
def security_gate (query : Str) : Bool × Str :=
  if trim query = [] then (true, str "empty query")
  else
    match (tokensOf query).find? (fun tok => DENYLIST.contains tok) with
    | some k => (true, k)
    | none =>
      if sepOf query then (true, str "multi-statement separator")
      else (false, [])

/-- Shallow embedding of DatabaseServer.call_tool (server.py). `database` is
db_config["database"], `db` models execute_query_statement on the acquired
session (`none` meaning the driver raised), `queryArg` is
arguments.get("query"). Python's `if not query` treats only the empty
string (or an absent argument) as missing. -/
def call_tool (database : Str) (db : Str → Option ResultSet)
    (name : Str) (queryArg : Option Str) : Outcome :=
  if name ≠ str "execute_sql" then
    ⟨some (str "Unknown tool: " ++ name), none, 0, 0, []⟩
  else
    match queryArg with
    | none => ⟨some (str "Query is required"), none, 0, 0, []⟩
    | some query =>
      if query = [] then ⟨some (str "Query is required"), none, 0, 0, []⟩
      else
        let gd := security_gate query
        if gd.1 then
          ⟨none,
           some (str "Error: Contain dangerous operations, reason:" ++ gd.2),
           0, 0, []⟩
        else
          match db query with
          | none => ⟨some (str "execute_query_statement failed"), none, 1, 0, [query]⟩
          | some res =>
            let stmt := upper (trim query)
            if (str "SHOW TABLES").isPrefixOf stmt then
              match firstFields res.rows with
              | none => ⟨some (str "IndexError"), none, 1, 0, [query]⟩
              | some names =>
                ⟨none,
                 some (joinSep '\n' ((str "Tables_in_" ++ database) :: names)),
                 1, 1, [query]⟩
            else if (str "SELECT").isPrefixOf stmt || (str "DESCRIBE").isPrefixOf stmt then
              ⟨none,
               some (joinSep '\n' (joinSep ',' res.columns :: res.rows.map (joinSep ','))),
               1, 1, [query]⟩
            else
              ⟨none, some (str "Error executing query"), 1, 0, [query]⟩

/-- The resource URI scheme, RES_PREFIX = "iotdb://" in server.py. -/
def RES_PREFIX : Str := str "iotdb://"

/-- Shallow embedding of DatabaseServer.read_resource (server.py). -/
def read_resource (db : Str → Option ResultSet) (uri : Str) : Outcome :=
  if ¬ (RES_PREFIX.isPrefixOf uri) then
    ⟨some (str "Invalid URI scheme: " ++ uri), none, 0, 0, []⟩
  else
    let table := (splitOnChar '/' (uri.drop RES_PREFIX.length)).headD []
    let q := str "SELECT * FROM " ++ table ++ str " LIMIT 100"
    match db q with
    | none => ⟨some (str "execute_query_statement failed"), none, 1, 0, [q]⟩
    | some res =>
      ⟨none,
       some (joinSep '\n' (joinSep ',' res.columns :: res.rows.map (joinSep ','))),
       1, 1, [q]⟩

/-- One advertised resource descriptor. -/
structure ResourceDesc where
  uri : Str
  name : Str
  mimeType : Str
  description : Str
deriving DecidableEq

/-- Observable outcome of list_resources. -/
structure ListOutcome where
  raised : Option Str
  resources : Option (List ResourceDesc)
  acquired : Nat
  closed : Nat
deriving DecidableEq

/-- Shallow embedding of DatabaseServer.list_resources (server.py). -/
def list_resources (db : Str → Option ResultSet) : ListOutcome :=
  match db (str "SHOW TABLES") with
  | none => ⟨some (str "execute_query_statement failed"), none, 1, 0⟩
  | some tables =>
    match firstFields tables.rows with
    | none => ⟨some (str "IndexError"), none, 1, 0⟩
    | some names =>
      ⟨none,
       some (names.map fun t =>
         ⟨RES_PREFIX ++ t ++ str "/data", str "Table: " ++ t,
          str "text/plain", str "Data in table: " ++ t⟩),
       1, 1⟩

/-- An in-memory prompt template: description and body. -/
structure Template where
  description : Str
  body : Str
deriving DecidableEq

/-- Python str.replace scan: `skip` counts characters of an already-replaced
occurrence that are still to be dropped. -/
def replaceGo (pat repl : Str) : Str → Nat → Str
  | [], _ => []
  | _ :: cs, Nat.succ k => replaceGo pat repl cs k
  | c :: cs, 0 =>
    if pat.isPrefixOf (c :: cs) then repl ++ replaceGo pat repl cs (pat.length - 1)
    else c :: replaceGo pat repl cs 0

/-- Python str.replace(pat, repl): every leftmost non-overlapping occurrence
of `pat` replaced by `repl` (the callers only use non-empty patterns). -/
def replaceAll (pat repl s : Str) : Str := replaceGo pat repl s 0

/-- The placeholder text the source builds for an argument key: two opening
braces, a space, the key, a space, two closing braces. -/
def placeholder (k : Str) : Str := str "\x7b\x7b " ++ k ++ str " \x7d\x7d"

/-- Shallow embedding of DatabaseServer.get_prompt (server.py): an unknown
name raises; otherwise each supplied argument's placeholder is replaced in
map (insertion) order, each replacement acting on the result of the
previous one. Returns the error message, or (description, substituted body). -/
def get_prompt (templates : List (Str × Template)) (name : Str)
    (arguments : Option (List (Str × Str))) : Except Str (Str × Str) :=
  match templates.find? (fun kv => kv.1 == name) with
  | none => Except.error (str "Unknown template: " ++ name)
  | some kv =>
    let body :=
      match arguments with
      | none => kv.2.body
      | some args => args.foldl (fun acc a => replaceAll (placeholder a.1) a.2 acc) kv.2.body
    Except.ok (kv.2.description, body)

/-- Defined from the spec's words, for comparison with get_prompt:
simultaneous substitution. In one left-to-right scan, every occurrence of a
supplied argument's placeholder is replaced by that argument's value and
every other character is kept unchanged. `skip` as in replaceGo. -/
def substGo (args : List (Str × Str)) : Str → Nat → Str
  | [], _ => []
  | _ :: cs, Nat.succ k => substGo args cs k
  | c :: cs, 0 =>
    match args.find? (fun a => (placeholder a.1).isPrefixOf (c :: cs)) with
    | some a => a.2 ++ substGo args cs ((placeholder a.1).length - 1)
    | none => c :: substGo args cs 0

/-- Simultaneous substitution of all supplied placeholders (from the spec's
words). -/
def substSpec (args : List (Str × Str)) (s : Str) : Str := substGo args s 0

/-- A database stub used by concrete evaluations. -/
def dbStub : Str → Option ResultSet := fun _ => some ⟨[], []⟩

/-! ### Helper lemmas -/

theorem splitOnChar_ne_nil (c : Char) (s : Str) : splitOnChar c s ≠ [] := by
  induction s with
  | nil => simp [splitOnChar]
  | cons x xs ih =>
    simp only [splitOnChar]
    split
    · simp
    · split
      · simp
      · simp

theorem splitOnChar_of_not_mem {c : Char} {s : Str} (h : c ∉ s) : splitOnChar c s = [s] := by
  induction s with
  | nil => rfl
  | cons x xs ih =>
    have hx : ¬ x = c := fun he => h (he ▸ List.mem_cons_self x xs)
    have hxs : c ∉ xs := fun hm => h (List.mem_cons_of_mem _ hm)
    simp only [splitOnChar, if_neg hx, ih hxs]

theorem splitOnChar_append {c : Char} {x rest : Str} (h : c ∉ x) :
    splitOnChar c (x ++ c :: rest) = x :: splitOnChar c rest := by
  induction x with
  | nil => simp [splitOnChar]
  | cons a as ih =>
    have ha : ¬ a = c := fun he => h (he ▸ List.mem_cons_self a as)
    have has : c ∉ as := fun hm => h (List.mem_cons_of_mem _ hm)
    simp only [List.cons_append, splitOnChar, if_neg ha, List.append_eq, ih has]

theorem splitOnChar_joinSep {c : Char} {xs : List Str} (hne : xs ≠ [])
    (hall : ∀ x ∈ xs, c ∉ x) : splitOnChar c (joinSep c xs) = xs := by
  induction xs with
  | nil => exact absurd rfl hne
  | cons x ys ih =>
    cases ys with
    | nil =>
      simp only [joinSep]
      exact splitOnChar_of_not_mem (hall x (by simp))
    | cons y zs =>
      simp only [joinSep]
      rw [splitOnChar_append (hall x (by simp))]
      rw [ih (by simp) (fun z hz => hall z (List.mem_cons_of_mem _ hz))]

theorem not_mem_joinSep {c d : Char} (hcd : c ≠ d) {xs : List Str}
    (hall : ∀ x ∈ xs, c ∉ x) : c ∉ joinSep d xs := by
  induction xs with
  | nil => simp [joinSep]
  | cons x ys ih =>
    cases ys with
    | nil =>
      simpa [joinSep] using hall x (by simp)
    | cons y zs =>
      simp only [joinSep]
      intro hmem
      rcases List.mem_append.1 hmem with h1 | h2
      · exact hall x (by simp) h1
      · rcases List.mem_cons.1 h2 with h3 | h4
        · exact hcd h3
        · exact ih (fun z hz => hall z (List.mem_cons_of_mem _ hz)) h4

theorem headD_splitOnChar (c : Char) (s : Str) :
    (splitOnChar c s).headD [] = s.takeWhile (fun x => !(x == c)) := by
  induction s with
  | nil => rfl
  | cons x xs ih =>
    by_cases h : x = c
    · simp [splitOnChar, h, List.takeWhile_cons]
    · simp only [splitOnChar, if_neg h]
      cases hs : splitOnChar c xs with
      | nil => exact absurd hs (splitOnChar_ne_nil c xs)
      | cons y ys =>
        rw [hs] at ih
        simp only [List.headD_cons] at ih
        have hbe : (x == c) = false := by
          exact beq_eq_false_iff_ne.2 h
        simp [List.takeWhile_cons, hbe, ih]

theorem not_show_of_select {s : Str} (h : (str "SELECT").isPrefixOf s = true) :
    (str "SHOW TABLES").isPrefixOf s = false := by
  cases s with
  | nil => simp [str] at h
  | cons a s1 =>
    cases s1 with
    | nil =>
      have e : str "SELECT" = ['S', 'E', 'L', 'E', 'C', 'T'] := rfl
      rw [e] at h
      simp [List.isPrefixOf] at h
    | cons b s2 =>
      have e : str "SELECT" = ['S', 'E', 'L', 'E', 'C', 'T'] := rfl
      have e2 : str "SHOW TABLES" =
          ['S', 'H', 'O', 'W', ' ', 'T', 'A', 'B', 'L', 'E', 'S'] := rfl
      rw [e] at h
      rw [e2]
      simp only [List.isPrefixOf, Bool.and_eq_true, beq_iff_eq] at h
      obtain ⟨-, hb, -⟩ := h
      subst hb
      simp [List.isPrefixOf]

theorem not_show_of_describe {s : Str} (h : (str "DESCRIBE").isPrefixOf s = true) :
    (str "SHOW TABLES").isPrefixOf s = false := by
  cases s with
  | nil => simp [str] at h
  | cons a s1 =>
    have e : str "DESCRIBE" = ['D', 'E', 'S', 'C', 'R', 'I', 'B', 'E'] := rfl
    have e2 : str "SHOW TABLES" =
        ['S', 'H', 'O', 'W', ' ', 'T', 'A', 'B', 'L', 'E', 'S'] := rfl
    rw [e] at h
    rw [e2]
    simp only [List.isPrefixOf, Bool.and_eq_true, beq_iff_eq] at h
    obtain ⟨ha, -⟩ := h
    subst ha
    simp [List.isPrefixOf]

theorem replaceGo_eq_substGo (k v : Str) (s : Str) (n : Nat) :
    replaceGo (placeholder k) v s n = substGo [(k, v)] s n := by
  induction s generalizing n with
  | nil => rfl
  | cons c cs ih =>
    cases n with
    | succ m => simpa [replaceGo, substGo] using ih m
    | zero =>
      simp only [replaceGo, substGo, List.find?]
      by_cases hp : (placeholder k).isPrefixOf (c :: cs) = true
      · simp only [hp, if_true]
        simp [ih]
      · simp only [hp]
        simp only [Bool.false_eq_true, if_false]
        simp [ih]

theorem contains_iff_mem {l : List Str} {a : Str} : l.contains a = true ↔ a ∈ l :=
  List.elem_iff

/-! ### Claims -/

/-- Claim C1 (evaluation at the failing input): on an approved query that is
neither SHOW TABLES nor SELECT/DESCRIBE, call_tool takes one session from the
pool and returns the diagnostic without ever closing the session — the
non-SELECT branch of call_tool has no close() call, so a session is leaked,
contradicting the invariant that a session retrieved from the pool is always
released exactly once. -/
theorem claim_C1 :
    (call_tool (str "db") dbStub (str "execute_sql") (some (str "SET SOMETHING"))).acquired = 1 ∧
      (call_tool (str "db") dbStub (str "execute_sql") (some (str "SET SOMETHING"))).closed = 0 := by
  decide

/-- Claim C2: the security gate rejects a query exactly when it is
empty/whitespace-only, or contains a denylisted keyword as a standalone token
outside quoted string literals, or contains a multi-statement separator
outside quoted string literals; moreover, whenever a denylisted keyword is
present as such a token, the rejection reason is itself a denylisted keyword
occurring as a token of the query. -/
theorem claim_C2 (q : Str) :
    ((security_gate q).1 = true ↔
      (trim q = [] ∨ (∃ k, k ∈ DENYLIST ∧ k ∈ tokensOf q) ∨ sepOf q = true)) ∧
    (trim q ≠ [] → (∃ k, k ∈ DENYLIST ∧ k ∈ tokensOf q) →
      (security_gate q).2 ∈ DENYLIST ∧ (security_gate q).2 ∈ tokensOf q) := by
  by_cases ht : trim q = []
  · refine ⟨?_, fun h => absurd ht h⟩
    simp [security_gate, ht]
  · cases hf : (tokensOf q).find? (fun tok => DENYLIST.contains tok) with
    | some k =>
      have hk1 : k ∈ DENYLIST := contains_iff_mem.1 (List.find?_some hf)
      have hk2 : k ∈ tokensOf q := List.mem_of_find?_eq_some hf
      have hgate : security_gate q = (true, k) := by
        unfold security_gate
        rw [if_neg ht, hf]
      refine ⟨?_, ?_⟩
      · rw [hgate]
        exact ⟨fun _ => Or.inr (Or.inl ⟨k, hk1, hk2⟩), fun _ => rfl⟩
      · intro _ _
        rw [hgate]
        exact ⟨hk1, hk2⟩
    | none =>
      have hno : ∀ x ∈ tokensOf q, ¬ DENYLIST.contains x = true :=
        List.find?_eq_none.1 hf
      cases hsep : sepOf q with
      | true =>
        have hgate : security_gate q = (true, str "multi-statement separator") := by
          unfold security_gate
          rw [if_neg ht, hf, hsep]
          simp
        refine ⟨?_, ?_⟩
        · rw [hgate]
          exact ⟨fun _ => Or.inr (Or.inr rfl), fun _ => rfl⟩
        · rintro - ⟨k, hk1, hk2⟩
          exact absurd (contains_iff_mem.2 hk1) (hno k hk2)
      | false =>
        have hgate : security_gate q = (false, []) := by
          unfold security_gate
          rw [if_neg ht, hf, hsep]
          simp
        refine ⟨?_, ?_⟩
        · rw [hgate]
          constructor
          · intro hc
            exact absurd hc (by simp)
          · rintro (h1 | ⟨k, hk1, hk2⟩ | h3)
            · exact absurd h1 ht
            · exact absurd (contains_iff_mem.2 hk1) (hno k hk2)
            · exact absurd h3 (by simp)
        · rintro - ⟨k, hk1, hk2⟩
          exact absurd (contains_iff_mem.2 hk1) (hno k hk2)

/-- Witness for claim C2: "SELECT 1; DROP TABLE x" is rejected and its reason
is a denylisted keyword; "DROP TABLE root.sg.d1" is rejected; a query whose
only denylisted keyword stands inside a quoted string literal is approved. -/
theorem claim_C2_witness :
    (security_gate (str "SELECT 1; DROP TABLE x")).1 = true ∧
      (security_gate (str "SELECT 1; DROP TABLE x")).2 ∈ DENYLIST ∧
      (security_gate (str "DROP TABLE root.sg.d1")).1 = true ∧
      (security_gate (str "SELECT * FROM t WHERE c = 'UPDATE'")).1 = false := by
  refine ⟨?_, ?_, ?_, ?_⟩
  · exact (claim_C2 (str "SELECT 1; DROP TABLE x")).1.2 (by decide)
  · exact ((claim_C2 (str "SELECT 1; DROP TABLE x")).2 (by decide) (by decide)).1
  · exact (claim_C2 (str "DROP TABLE root.sg.d1")).1.2 (by decide)
  · have h := (claim_C2 (str "SELECT * FROM t WHERE c = 'UPDATE'")).1
    cases hb : (security_gate (str "SELECT * FROM t WHERE c = 'UPDATE'")).1 with
    | false => rfl
    | true => exact absurd (h.1 hb) (by decide)

/-- Counterexample to claim C3 as stated: the empty query is classified as
dangerous by the security gate, yet call_tool("execute_sql", ...) on it does
not return the "Error: Contain dangerous operations" text — it raises the
"Query is required" validation error before the gate ever runs. -/
theorem claim_C3_counterexample :
    (security_gate []).1 = true ∧
      (call_tool (str "db") dbStub (str "execute_sql") (some [])).raised =
        some (str "Query is required") ∧
      (call_tool (str "db") dbStub (str "execute_sql") (some [])).text = none := by
  decide

/-- Claim C3 (amended to non-empty queries): for every non-empty query that
the security gate classifies as dangerous, call_tool returns ordinary text
output consisting of "Error: Contain dangerous operations, reason:" followed
by the gate's reason, raises no error, and never touches the session pool. -/
theorem claim_C3 (database : Str) (db : Str → Option ResultSet) (q : Str)
    (hq : q ≠ []) (hgate : (security_gate q).1 = true) :
    call_tool database db (str "execute_sql") (some q) =
      ⟨none, some (str "Error: Contain dangerous operations, reason:" ++ (security_gate q).2),
       0, 0, []⟩ := by
  simp [call_tool, hq, hgate]

/-- Witness for claim C3 at the spec's end-to-end scenario 1. -/
theorem claim_C3_witness :
    call_tool (str "db") dbStub (str "execute_sql") (some (str "DROP TABLE root.sg.d1")) =
      ⟨none, some (str "Error: Contain dangerous operations, reason:DROP"), 0, 0, []⟩ := by
  have h := claim_C3 (str "db") dbStub (str "DROP TABLE root.sg.d1") (by decide) (by decide)
  rw [h]
  rfl

/-- Counterexample to claim C4 as stated: since fields are joined with no
quoting or escaping, a result set whose single column is named "a,b" makes
the first line of the returned text split into two comma-separated fields
while the column count is one. -/
theorem claim_C4_counterexample :
    (call_tool (str "db") (fun _ => some ⟨[str "a,b"], []⟩)
        (str "execute_sql") (some (str "SELECT 1"))).text = some (str "a,b") ∧
      (splitOnChar ',' ((splitOnChar '\n' (str "a,b")).headD [])).length = 2 ∧
      ([str "a,b"] : List Str).length = 1 := by
  decide

/-- Claim C4 (amended): for every approved non-empty query whose trimmed,
uppercased text starts with SELECT or DESCRIBE and that executes
successfully, call_tool returns the text whose lines are the comma-joined
column names followed by one comma-joined row per cursor row; provided the
result set has at least one column, no column name contains a comma or a
newline, and no field contains a newline, the first line splits on commas
into exactly the column names (hence as many fields as columns) and the text
has exactly 1 + (number of rows) newline-separated lines. -/
theorem claim_C4 (database : Str) (db : Str → Option ResultSet) (q : Str)
    (res : ResultSet)
    (hq : q ≠ []) (hgate : (security_gate q).1 = false) (hdb : db q = some res)
    (hsel : (str "SELECT").isPrefixOf (upper (trim q)) = true ∨
      (str "DESCRIBE").isPrefixOf (upper (trim q)) = true)
    (hcols : res.columns ≠ [])
    (hnocomma : ∀ x ∈ res.columns, ',' ∉ x)
    (hnonl : ∀ x ∈ res.columns, '\n' ∉ x)
    (hfieldnl : ∀ r ∈ res.rows, ∀ f ∈ r, '\n' ∉ f) :
    (call_tool database db (str "execute_sql") (some q)).text =
      some (joinSep '\n' (joinSep ',' res.columns :: res.rows.map (joinSep ','))) ∧
    splitOnChar '\n' (joinSep '\n' (joinSep ',' res.columns :: res.rows.map (joinSep ','))) =
      joinSep ',' res.columns :: res.rows.map (joinSep ',') ∧
    splitOnChar ',' (joinSep ',' res.columns) = res.columns ∧
    (splitOnChar ',' (joinSep ',' res.columns)).length = res.columns.length ∧
    (splitOnChar '\n' (joinSep '\n' (joinSep ',' res.columns :: res.rows.map (joinSep ',')))).length =
      1 + res.rows.length := by
  have hns : (str "SHOW TABLES").isPrefixOf (upper (trim q)) = false := by
    cases hsel with
    | inl h => exact not_show_of_select h
    | inr h => exact not_show_of_describe h
  have hsd : ((str "SELECT").isPrefixOf (upper (trim q)) ||
      (str "DESCRIBE").isPrefixOf (upper (trim q))) = true := by
    cases hsel with
    | inl h => simp [h]
    | inr h => simp [h]
  have htext : (call_tool database db (str "execute_sql") (some q)).text =
      some (joinSep '\n' (joinSep ',' res.columns :: res.rows.map (joinSep ','))) := by
    simp [call_tool, hq, hgate, hdb, hns, hsd]
  have hsplit : splitOnChar '\n' (joinSep '\n' (joinSep ',' res.columns :: res.rows.map (joinSep ','))) =
      joinSep ',' res.columns :: res.rows.map (joinSep ',') := by
    refine splitOnChar_joinSep (by simp) ?_
    intro x hx
    rcases List.mem_cons.1 hx with h | h
    · subst h
      exact not_mem_joinSep (by decide) hnonl
    · obtain ⟨r, hr, rfl⟩ := List.mem_map.1 h
      exact not_mem_joinSep (by decide) (hfieldnl r hr)
  have hcolsplit : splitOnChar ',' (joinSep ',' res.columns) = res.columns :=
    splitOnChar_joinSep hcols hnocomma
  refine ⟨htext, hsplit, hcolsplit, ?_, ?_⟩
  · rw [hcolsplit]
  · rw [hsplit]
    simp [Nat.add_comm]

/-- Witness for claim C4 at the spec's end-to-end scenario 3's table shape. -/
theorem claim_C4_witness :
    (call_tool (str "db") (fun _ => some ⟨[str "time", str "temp"], [[str "1", str "23.5"]]⟩)
        (str "execute_sql") (some (str "SELECT * FROM t"))).text =
      some (str "time,temp\n1,23.5") ∧
    splitOnChar ',' (str "time,temp") = [str "time", str "temp"] ∧
    (splitOnChar '\n' (str "time,temp\n1,23.5")).length = 1 + 1 := by
  have h := claim_C4 (str "db")
      (fun _ => some ⟨[str "time", str "temp"], [[str "1", str "23.5"]]⟩)
      (str "SELECT * FROM t") ⟨[str "time", str "temp"], [[str "1", str "23.5"]]⟩
      (by decide) (by decide) rfl (Or.inl (by decide)) (by decide) (by decide)
      (by decide) (by decide)
  refine ⟨?_, ?_, ?_⟩
  · rw [h.1]
    rfl
  · exact h.2.2.1
  · exact h.2.2.2.2

/-- Claim C5: for every approved non-empty query whose trimmed, uppercased
text starts with SHOW TABLES and that executes successfully (each returned
row having a first field), call_tool returns, without raising, the
synthesized header "Tables_in_<database>" followed by one table name (the
row's first field) per line. -/
theorem claim_C5 (database : Str) (db : Str → Option ResultSet) (q : Str)
    (res : ResultSet) (names : List Str)
    (hq : q ≠ []) (hgate : (security_gate q).1 = false) (hdb : db q = some res)
    (hshow : (str "SHOW TABLES").isPrefixOf (upper (trim q)) = true)
    (hnames : firstFields res.rows = some names) :
    (call_tool database db (str "execute_sql") (some q)).text =
      some (joinSep '\n' ((str "Tables_in_" ++ database) :: names)) ∧
    (call_tool database db (str "execute_sql") (some q)).raised = none := by
  constructor <;> simp [call_tool, hq, hgate, hdb, hshow, hnames]

/-- Witness for claim C5 at the spec's end-to-end scenario 2: two tables a
and b with configured database "db" give "Tables_in_db\na\nb". -/
theorem claim_C5_witness :
    (call_tool (str "db") (fun _ => some ⟨[str "x"], [[str "a"], [str "b"]]⟩)
        (str "execute_sql") (some (str "SHOW TABLES"))).text =
      some (str "Tables_in_db\na\nb") := by
  have h := claim_C5 (str "db") (fun _ => some ⟨[str "x"], [[str "a"], [str "b"]]⟩)
      (str "SHOW TABLES") ⟨[str "x"], [[str "a"], [str "b"]]⟩ [str "a", str "b"]
      (by decide) (by decide) rfl (by decide) (by decide)
  rw [h.1]
  rfl

/-- Counterexample to claim C6 as stated: on the template body consisting of
the placeholder of "a", with arguments a ↦ (placeholder of "b") and b ↦ "X",
the source's sequential replacement also substitutes the placeholder that
the first replacement introduced, returning "X"; replacing every occurrence
of each supplied placeholder of the body while leaving all other text
character-for-character unchanged (simultaneous substitution, substSpec)
yields the placeholder of "b" instead. -/
theorem claim_C6_counterexample :
    get_prompt [(str "p", ⟨str "d", placeholder (str "a")⟩)] (str "p")
        (some [(str "a", placeholder (str "b")), (str "b", str "X")]) =
      Except.ok (str "d", str "X") ∧
    substSpec [(str "a", placeholder (str "b")), (str "b", str "X")]
        (placeholder (str "a")) = placeholder (str "b") ∧
    (str "X" : Str) ≠ placeholder (str "b") := by
  refine ⟨rfl, by decide, by decide⟩

/-- Claim C6 (amended): get_prompt rejects every unknown prompt name; for a
known prompt name and a single-argument map it returns the template body
with every (leftmost, non-overlapping) occurrence of the argument's
placeholder replaced by that argument's value and all other text unchanged —
the simultaneous substitution substSpec. For multi-argument maps the source
applies the replacements sequentially in map order, so an argument value
that introduces another supplied argument's placeholder is substituted
again. -/
theorem claim_C6 (templates : List (Str × Template)) (name : Str) :
    (templates.find? (fun kv => kv.1 == name) = none →
      ∀ args, get_prompt templates name args =
        Except.error (str "Unknown template: " ++ name)) ∧
    (∀ kv, templates.find? (fun kv0 => kv0.1 == name) = some kv →
      ∀ k v, get_prompt templates name (some [(k, v)]) =
        Except.ok (kv.2.description, substSpec [(k, v)] kv.2.body)) := by
  constructor
  · intro h args
    simp [get_prompt, h]
  · intro kv h k v
    simp [get_prompt, h, replaceAll, substSpec, replaceGo_eq_substGo]

/-- Witness for claim C6: unknown prompt names are rejected, and a known
template "Hello ((a))!" (written with braces in the source) with a ↦ "X"
becomes "Hello X!". -/
theorem claim_C6_witness :
    get_prompt [(str "p", ⟨str "d", str "Hello \x7b\x7b a \x7d\x7d!"⟩)] (str "q") none =
      Except.error (str "Unknown template: q") ∧
    get_prompt [(str "p", ⟨str "d", str "Hello \x7b\x7b a \x7d\x7d!"⟩)] (str "p")
        (some [(str "a", str "X")]) = Except.ok (str "d", str "Hello X!") := by
  constructor
  · have h := (claim_C6 [(str "p", ⟨str "d", str "Hello \x7b\x7b a \x7d\x7d!"⟩)]
        (str "q")).1 rfl none
    rw [h]
    rfl
  · have h := (claim_C6 [(str "p", ⟨str "d", str "Hello \x7b\x7b a \x7d\x7d!"⟩)]
        (str "p")).2 (str "p", ⟨str "d", str "Hello \x7b\x7b a \x7d\x7d!"⟩) rfl
        (str "a") (str "X")
    rw [h]
    rfl

/-- Claim C7: every validation error — unknown tool name, missing or empty
query argument, or a resource URI without the scheme prefix — raises a
request-level error, returns no text, and never touches the session pool. -/
theorem claim_C7 :
    (∀ database db name qa, name ≠ str "execute_sql" →
      call_tool database db name qa =
        ⟨some (str "Unknown tool: " ++ name), none, 0, 0, []⟩) ∧
    (∀ database db qa, qa = none ∨ qa = some [] →
      call_tool database db (str "execute_sql") qa =
        ⟨some (str "Query is required"), none, 0, 0, []⟩) ∧
    (∀ db uri, RES_PREFIX.isPrefixOf uri = false →
      read_resource db uri =
        ⟨some (str "Invalid URI scheme: " ++ uri), none, 0, 0, []⟩) := by
  refine ⟨?_, ?_, ?_⟩
  · intro database db name qa h
    simp [call_tool, h]
  · rintro database db qa (rfl | rfl)
    · simp [call_tool]
    · simp [call_tool]
  · intro db uri h
    simp [read_resource, h]

/-- Witness for claim C7: an unknown tool, an absent query argument and a
URI with the wrong scheme are each rejected without touching the pool. -/
theorem claim_C7_witness :
    call_tool (str "db") dbStub (str "other_tool") (some (str "SELECT 1")) =
      ⟨some (str "Unknown tool: other_tool"), none, 0, 0, []⟩ ∧
    call_tool (str "db") dbStub (str "execute_sql") none =
      ⟨some (str "Query is required"), none, 0, 0, []⟩ ∧
    read_resource dbStub (str "https://t/data") =
      ⟨some (str "Invalid URI scheme: https://t/data"), none, 0, 0, []⟩ := by
  refine ⟨?_, ?_, ?_⟩
  · have h := claim_C7.1 (str "db") dbStub (str "other_tool") (some (str "SELECT 1"))
      (by decide)
    rw [h]
    rfl
  · exact claim_C7.2.1 (str "db") dbStub none (Or.inl rfl)
  · have h := claim_C7.2.2 dbStub (str "https://t/data") (by decide)
    rw [h]
    rfl

/-- Claim C8: every approved non-empty query that executes successfully and
whose trimmed, uppercased text starts with none of SHOW TABLES, SELECT or
DESCRIBE makes call_tool return the fixed diagnostic "Error executing query"
rather than any cursor data. -/
theorem claim_C8 (database : Str) (db : Str → Option ResultSet) (q : Str)
    (res : ResultSet)
    (hq : q ≠ []) (hgate : (security_gate q).1 = false) (hdb : db q = some res)
    (hnshow : (str "SHOW TABLES").isPrefixOf (upper (trim q)) = false)
    (hnsel : (str "SELECT").isPrefixOf (upper (trim q)) = false)
    (hndesc : (str "DESCRIBE").isPrefixOf (upper (trim q)) = false) :
    call_tool database db (str "execute_sql") (some q) =
      ⟨none, some (str "Error executing query"), 1, 0, [q]⟩ := by
  simp [call_tool, hq, hgate, hdb, hnshow, hnsel, hndesc]

/-- Witness for claim C8 at the spec's end-to-end scenario 4. -/
theorem claim_C8_witness :
    call_tool (str "db") dbStub (str "execute_sql") (some (str "SET SOMETHING")) =
      ⟨none, some (str "Error executing query"), 1, 0, [str "SET SOMETHING"]⟩ :=
  claim_C8 (str "db") dbStub (str "SET SOMETHING") ⟨[], []⟩
    (by decide) (by decide) rfl (by decide) (by decide) (by decide)

theorem isPrefixOf_append_self : ∀ (l r : Str), l.isPrefixOf (l ++ r) = true
  | [], _ => by simp
  | a :: l, r => by simp [List.isPrefixOf, isPrefixOf_append_self l r]

theorem read_resource_executed (db : Str → Option ResultSet) (uri : Str)
    (h : RES_PREFIX.isPrefixOf uri = true) :
    (read_resource db uri).executed =
      [str "SELECT * FROM " ++ (splitOnChar '/' (uri.drop RES_PREFIX.length)).headD [] ++
        str " LIMIT 100"] := by
  simp only [read_resource, h, not_true_eq_false, if_false]
  cases db (str "SELECT * FROM " ++
      (splitOnChar '/' (uri.drop RES_PREFIX.length)).headD [] ++ str " LIMIT 100") with
  | none => rfl
  | some res => rfl

/-- Claim C9: statement-kind classification is a string-prefix match on the
trimmed, uppercased query text, so every approved non-empty query that
executes successfully and whose normalized text merely begins with the
characters "SELECT" or "DESCRIBE" — also as a prefix of a longer word such
as "SELECTED" — is formatted as a tabular result (comma-joined header line
plus one comma-joined line per row) rather than falling into the error
branch. -/
theorem claim_C9 (database : Str) (db : Str → Option ResultSet) (q : Str)
    (res : ResultSet)
    (hq : q ≠ []) (hgate : (security_gate q).1 = false) (hdb : db q = some res)
    (hsel : (str "SELECT").isPrefixOf (upper (trim q)) = true ∨
      (str "DESCRIBE").isPrefixOf (upper (trim q)) = true) :
    call_tool database db (str "execute_sql") (some q) =
      ⟨none, some (joinSep '\n' (joinSep ',' res.columns :: res.rows.map (joinSep ','))),
       1, 1, [q]⟩ := by
  have hns : (str "SHOW TABLES").isPrefixOf (upper (trim q)) = false := by
    cases hsel with
    | inl h => exact not_show_of_select h
    | inr h => exact not_show_of_describe h
  have hsd : ((str "SELECT").isPrefixOf (upper (trim q)) ||
      (str "DESCRIBE").isPrefixOf (upper (trim q))) = true := by
    cases hsel with
    | inl h => simp [h]
    | inr h => simp [h]
  simp [call_tool, hq, hgate, hdb, hns, hsd]

/-- Witness for claim C9: "SELECTED FOO", approved and not a real SELECT
statement, still lands in the tabular branch. -/
theorem claim_C9_witness :
    call_tool (str "db") (fun _ => some ⟨[str "c"], [[str "1"]]⟩)
        (str "execute_sql") (some (str "SELECTED FOO")) =
      ⟨none, some (str "c\n1"), 1, 1, [str "SELECTED FOO"]⟩ := by
  have h := claim_C9 (str "db") (fun _ => some ⟨[str "c"], [[str "1"]]⟩)
      (str "SELECTED FOO") ⟨[str "c"], [[str "1"]]⟩
      (by decide) (by decide) rfl (Or.inl (by decide))
  rw [h]
  rfl

/-- Claim C10: for every URI starting with the scheme prefix "iotdb://",
read_resource takes as the table name exactly the characters between the
prefix and the first subsequent "/" (or the rest of the string if none) and
ignores everything after it: the executed statement is
"SELECT * FROM (that table) LIMIT 100", and appending "/" plus any suffix
to a slash-free table segment leaves the whole outcome unchanged — the
advertised "/data" suffix is never validated. -/
theorem claim_C10 :
    (∀ (db : Str → Option ResultSet) (rest : Str),
      (read_resource db (RES_PREFIX ++ rest)).executed =
        [str "SELECT * FROM " ++ rest.takeWhile (fun c => !(c == '/')) ++
          str " LIMIT 100"]) ∧
    (∀ (db : Str → Option ResultSet) (t rest2 : Str), '/' ∉ t →
      read_resource db (RES_PREFIX ++ t ++ '/' :: rest2) =
        read_resource db (RES_PREFIX ++ t)) := by
  constructor
  · intro db rest
    have h1 : RES_PREFIX.isPrefixOf (RES_PREFIX ++ rest) = true :=
      isPrefixOf_append_self _ _
    rw [read_resource_executed db _ h1, List.drop_left, headD_splitOnChar]
  · intro db t rest2 ht
    have h1 : RES_PREFIX.isPrefixOf (RES_PREFIX ++ t ++ '/' :: rest2) = true := by
      rw [List.append_assoc]
      exact isPrefixOf_append_self _ _
    have h2 : RES_PREFIX.isPrefixOf (RES_PREFIX ++ t) = true :=
      isPrefixOf_append_self _ _
    have e1 : (RES_PREFIX ++ t ++ '/' :: rest2).drop RES_PREFIX.length =
        t ++ '/' :: rest2 := by
      rw [List.append_assoc]
      exact List.drop_left _ _
    have e2 : (RES_PREFIX ++ t).drop RES_PREFIX.length = t :=
      List.drop_left _ _
    have e3 : (splitOnChar '/' (t ++ '/' :: rest2)).headD [] = t := by
      rw [splitOnChar_append ht]
      rfl
    have e4 : (splitOnChar '/' t).headD [] = t := by
      rw [splitOnChar_of_not_mem ht]
      rfl
    simp only [read_resource, h1, h2, e1, e2, e3, e4]
    simp

/-- Witness for claim C10: "iotdb://t" and "iotdb://t/anything" send the
same "SELECT * FROM t LIMIT 100" and give the same outcome. -/
theorem claim_C10_witness :
    (read_resource dbStub (str "iotdb://t")).executed =
      [str "SELECT * FROM t LIMIT 100"] ∧
    read_resource dbStub (str "iotdb://t/anything") =
      read_resource dbStub (str "iotdb://t") := by
  constructor
  · have e : str "iotdb://t" = RES_PREFIX ++ str "t" := rfl
    rw [e, claim_C10.1 dbStub (str "t")]
    rfl
  · have e : str "iotdb://t/anything" = RES_PREFIX ++ str "t" ++ '/' :: str "anything" := rfl
    have e2 : str "iotdb://t" = RES_PREFIX ++ str "t" := rfl
    rw [e, e2, claim_C10.2 dbStub (str "t") (str "anything") (by decide)]

end IoTDBMCP
